import Mathlib

/-!
Verification development for the subsplease-dl repository.

The embedding models, from the source:
- `subsplease.py`: the listing-line regular expressions `FILENAME_RE` /
  `LISTFILE_RE` (as a small backtracking matcher with Python `re` ordered
  choice semantics), `ListFile.__init__`, the list cache check in
  `SubsPleaseXDCC.list_files`, and `SubsPleaseXDCC.search` (with a model of
  `difflib` similarity).
- `src/subsplease_dl/xdcc.py`: the two-lock XDCC client (`avalible_lock`,
  `dl_lock`), its event handlers (`on_ctcp`, `on_dccmsg`,
  `on_dcc_disconnect`, `on_welcome`, `on_join`) and the blocking
  `XDCC.send`, as a sequential state machine over an explicit event script.
-/

namespace SubsPleaseDL

/-! ## Regular-expression engine

Python's `re.match` uses leftmost backtracking with ordered choice: greedy
repetitions try longer matches first, reluctant ones shorter first.  All
repetitions appearing in `LISTFILE_RE` are over single-character classes, so
the engine only needs character-class repetition.  Captures are recorded as
`(group index, captured characters)` pairs, most recently completed first. -/

abbrev Caps := List (Nat × List Char)

/-- Continuation for the backtracking matcher. -/
abbrev MatchK := List Char → Caps → Option Caps

/-- Regular expressions restricted to the constructs used by `LISTFILE_RE`:
literal characters, character classes, sequencing, greedy option, greedy
star/plus over a class, reluctant plus over a class, and capture groups. -/
inductive RE where
  | eps : RE
  | chr : Char → RE
  | cls : (Char → Bool) → RE
  | seq : RE → RE → RE
  | opt : RE → RE
  | starG : (Char → Bool) → RE
  | plusG : (Char → Bool) → RE
  | plusL : (Char → Bool) → RE
  | grp : Nat → RE → RE

/-- Length of the longest prefix of `s` consisting of characters satisfying
`p` (the maximal run a class repetition can consume). -/
def runLen (p : Char → Bool) : List Char → Nat
  | [] => 0
  | c :: cs => if p c then runLen p cs + 1 else 0

/-- Greedy repetition: try consuming `i` characters for `i` descending from
the maximal run down to 0. -/
def tryDesc (k : MatchK) (s : List Char) (caps : Caps) : Nat → Option Caps
  | 0 => k s caps
  | i + 1 => (k (s.drop (i + 1)) caps).orElse (fun _ => tryDesc k s caps i)

/-- Greedy repetition requiring at least one character: `i` descending from
the maximal run down to 1. -/
def tryDescOne (k : MatchK) (s : List Char) (caps : Caps) : Nat → Option Caps
  | 0 => none
  | i + 1 => (k (s.drop (i + 1)) caps).orElse (fun _ => tryDescOne k s caps i)

/-- Reluctant repetition: try consuming `i` characters ascending, `rem` more
attempts remaining after the current one. -/
def tryAsc (k : MatchK) (s : List Char) (caps : Caps) : Nat → Nat → Option Caps
  | i, 0 => k (s.drop i) caps
  | i, rem + 1 => (k (s.drop i) caps).orElse (fun _ => tryAsc k s caps (i + 1) rem)

/-- Backtracking matcher in continuation-passing style; ordered choice gives
Python `re` semantics for the constructs of `RE`. -/
def matchR : RE → List Char → Caps → MatchK → Option Caps
  | .eps, s, caps, k => k s caps
  | .chr c, s, caps, k =>
    match s with
    | c' :: s' => if c' = c then k s' caps else none
    | [] => none
  | .cls p, s, caps, k =>
    match s with
    | c' :: s' => if p c' then k s' caps else none
    | [] => none
  | .seq a b, s, caps, k => matchR a s caps (fun s' caps' => matchR b s' caps' k)
  | .opt r, s, caps, k => (matchR r s caps k).orElse (fun _ => k s caps)
  | .starG p, s, caps, k => tryDesc k s caps (runLen p s)
  | .plusG p, s, caps, k => tryDescOne k s caps (runLen p s)
  | .plusL p, s, caps, k =>
    let m := runLen p s
    if m = 0 then none else tryAsc k s caps 1 (m - 1)
  | .grp n r, s, caps, k =>
    matchR r s caps (fun s' caps' => k s' ((n, s.take (s.length - s'.length)) :: caps'))

/-- Sequence a list of regular expressions. -/
def seqs (l : List RE) : RE := l.foldr .seq .eps

/-- Model of `re.match`: anchored at the start of the string, free at the
end; returns the capture list on success. -/
def reMatch (r : RE) (s : String) : Option Caps :=
  matchR r s.data [] (fun _ caps => some caps)

/-- Model of `match.groups("")` access: the text of group `n`, defaulting to
the empty string when the group did not participate in the match. -/
def groupStr (caps : Caps) (n : Nat) : String :=
  match caps.find? (fun p => p.1 = n) with
  | some p => String.mk p.2
  | none => ""

/-! Character classes of `LISTFILE_RE` (ASCII model of Python's `\d`, `\w`;
the listing data is ASCII). -/

/-- Python `\d` (ASCII). -/
def isDigitC (c : Char) : Bool := c.isDigit

/-- Python `\w` (ASCII): letters, digits and underscore. -/
def isWordC (c : Char) : Bool := c.isAlphanum || c = '_'

/-- The class `[\d\. ]` of the size-value group. -/
def sizeCls (c : Char) : Bool := c.isDigit || c = '.' || c = ' '

/-- Python `.` without DOTALL: any character except a newline. -/
def anyC (c : Char) : Bool := !(c = '\n')

/-- The class `[\[\(]`. -/
def openBr (c : Char) : Bool := c = '[' || c = '('

/-- The class `[\]\)]`. -/
def closeBr (c : Char) : Bool := c = ']' || c = ')'

/-- The filename part: `FILENAME_RE = (\[(\w+)\] (.+?)(?: - (.+?))? [\[\(](\w+)[\]\)].*\.\w+)`
with capture groups numbered as inside `LISTFILE_RE`: 5 = filename,
6 = group, 7 = title, 8 = episode, 9 = resolution. -/
def FILENAME_RE : RE :=
  .grp 5 (seqs [
    .chr '[', .grp 6 (.plusG isWordC), .chr ']', .chr ' ',
    .grp 7 (.plusL anyC),
    .opt (seqs [.chr ' ', .chr '-', .chr ' ', .grp 8 (.plusL anyC)]),
    .chr ' ', .cls openBr, .grp 9 (.plusG isWordC), .cls closeBr,
    .starG anyC, .chr '.', .plusG isWordC])

/-- The full listing-line pattern `LISTFILE_RE = #(\d+) +(\d+)x +\[([\d\. ]+)(\w)] ` + `FILENAME_RE`:
groups 1 = id, 2 = downloads, 3 = size value, 4 = size unit. -/
def LISTFILE_RE : RE :=
  seqs [
    .chr '#', .grp 1 (.plusG isDigitC), .plusG (fun c => c = ' '),
    .grp 2 (.plusG isDigitC), .chr 'x', .plusG (fun c => c = ' '),
    .chr '[', .grp 3 (.plusG sizeCls), .grp 4 (.cls isWordC),
    .chr ']', .chr ' ', FILENAME_RE]

/-! ## Listing entries (`subsplease.py`, `ListFile.__init__`)

`ListFile.__init__` matches `LISTFILE_RE`; on failure it emits a warning and
returns, leaving the object constructed with only `raw` (and none of the
parsed attributes) set.  On success it sets the parsed attributes, computing
`size = int(float(size_text) * {"B": 1, "K": 0x400, "M": 0x100000,
"G": 0x40000000}[size_unit])`; an unknown unit raises an uncaught
`KeyError`, an unparsable size text an uncaught `ValueError`. -/

/-- Equality of `Except` results is decidable componentwise (needed to
evaluate concrete runs by `decide`). -/
instance instDecEqExcept {ε α : Type} [DecidableEq ε] [DecidableEq α] :
    DecidableEq (Except ε α) := fun a b =>
  match a, b with
  | .ok x, .ok y =>
    if h : x = y then .isTrue (by rw [h]) else .isFalse (by intro hc; cases hc; exact h rfl)
  | .error x, .error y =>
    if h : x = y then .isTrue (by rw [h]) else .isFalse (by intro hc; cases hc; exact h rfl)
  | .ok _, .error _ => .isFalse (by intro hc; cases hc)
  | .error _, .ok _ => .isFalse (by intro hc; cases hc)

/-- Python exceptions that escape the modelled code. -/
inductive PyErr where
  | keyError (key : String)
  | valueError
  | overflowError
  | attributeError
  | exception (msg : String)
  deriving Repr, DecidableEq

/-- Value of a string of decimal digits (as `int` does on digit strings). -/
def natOfDigits (l : List Char) : Nat :=
  l.foldl (fun n c => n * 10 + (c.toNat - 48)) 0

/-- Lexing part of CPython `float(text)` restricted to the characters the
size group `[\d\. ]+` can produce, returning the denoted decimal exactly as
a pair `(mantissa, fracDigits)` with value `mantissa / 10 ^ fracDigits`;
`none` models the `ValueError` raised on malformed numerals.  `float`
strips surrounding whitespace, accepts at most one dot, and needs at least
one digit.  The rounding of this exact decimal to the binary64 value
`float` actually returns is done by `doubleOfDecimal` below (CPython's
string-to-float conversion is correctly rounded). -/
def pyFloatParse (s : String) : Option (Nat × Nat) :=
  let t := ((s.data.dropWhile (fun c => c = ' ')).reverse.dropWhile
    (fun c => c = ' ')).reverse
  if t.any (fun c => c = ' ') then none
  else if !t.all (fun c => c.isDigit || c = '.') then none
  else
    match (t.filter (fun c => c = '.')).length with
    | 0 => if t.isEmpty then none else some (natOfDigits t, 0)
    | 1 =>
      let intPart := t.takeWhile (fun c => !(c = '.'))
      let fracPart := (t.dropWhile (fun c => !(c = '.'))).drop 1
      if intPart.isEmpty && fracPart.isEmpty then none
      else some (natOfDigits (intPart ++ fracPart), fracPart.length)
    | _ => none

/-- Number of binary digits of `n` (`0` for `0`), by fuelled halving: the
fuel `n` bounds the recursion depth, which is the bit length itself. -/
def bitLenAux : Nat → Nat → Nat
  | 0, _ => 0
  | fuel + 1, n => if n = 0 then 0 else bitLenAux fuel (n / 2) + 1

/-- Bit length of a natural number: `bitLen n = e + 1` iff `2^e ≤ n < 2^(e+1)`. -/
def bitLen (n : Nat) : Nat := bitLenAux n n

/-- For positive `a`, `b`: the unique `e : ℤ` with `2^e ≤ a / b < 2^(e+1)`.
The bit-length difference is off by at most one, which a single scaled
comparison settles. -/
def floorLog2Rat (a b : Nat) : Int :=
  let e0 : Int := (bitLen a : Int) - (bitLen b : Int)
  if 0 ≤ e0 then
    (if b * 2 ^ e0.toNat ≤ a then e0 else e0 - 1)
  else
    (if b ≤ a * 2 ^ (-e0).toNat then e0 else e0 - 1)

/-- Round the non-negative rational `p / q` (with `q > 0`) to the nearest
integer, ties going to the even neighbour (IEEE-754 round-to-nearest-even). -/
def roundHalfEven (p q : Nat) : Nat :=
  if 2 * (p % q) < q then p / q
  else if q < 2 * (p % q) then p / q + 1
  else if p / q % 2 = 0 then p / q else p / q + 1

/-- A non-negative CPython float: a finite binary64 value `num · 2^exp`, or
the infinity that `float` returns for decimals beyond the binary64 range. -/
inductive PyFloat where
  | finite (num : Nat) (exp : Int)
  | inf
  deriving Repr, DecidableEq

/-- The binary64 (IEEE-754 double) value CPython `float` returns for the
non-negative decimal `m / 10^d`: with `e = ⌊log2 (m / 10^d)⌋`, the value is
rounded half-to-even onto the grid of spacing `2^u`, `u = max (e - 52)
(-1074)` (normal numbers carry 53 significand bits; the subnormal grid
stops at `2^-1074`); a rounded value of `2^1024` or more is `inf`. -/
def doubleOfDecimal (m d : Nat) : PyFloat :=
  if m = 0 then .finite 0 0
  else
    let u : Int := max (floorLog2Rat m (10 ^ d) - 52) (-1074)
    let num : Nat :=
      if 0 ≤ u then roundHalfEven m (10 ^ d * 2 ^ u.toNat)
      else roundHalfEven (m * 2 ^ (-u).toNat) (10 ^ d)
    if 0 ≤ u ∧ 2 ^ 1024 ≤ num * 2 ^ u.toNat then .inf
    else .finite num u

/-- The evaluation of `int(x * mult)` for a non-negative float `x` and the
power-of-two unit multiplier: multiplying a finite double by `2^k` is
exact except for overflow to infinity, and `int` truncates (`int(inf)`
raises `OverflowError`, as does the overflowed product). -/
def truncProduct (f : PyFloat) (mult : Nat) : Except PyErr Nat :=
  match f with
  | .inf => .error .overflowError
  | .finite num u =>
    if 0 ≤ u then
      if 2 ^ 1024 ≤ num * mult * 2 ^ u.toNat then .error .overflowError
      else .ok (num * mult * 2 ^ u.toNat)
    else .ok (num * mult / 2 ^ (-u).toNat)

/-- The unit-multiplier dictionary; `none` models the `KeyError` on any
other key. -/
def unitTable (u : String) : Option Nat :=
  if u = "B" then some 1
  else if u = "K" then some 1024
  else if u = "M" then some 1048576
  else if u = "G" then some 1073741824
  else none

/-- The attributes `ListFile.__init__` sets when the line matches. -/
structure ParsedFields where
  id : Nat
  downloads : Nat
  size : Nat
  filename : String
  group : String
  title : String
  episode : String
  resolution : String
  deriving Repr, DecidableEq

/-- A constructed `ListFile` object: `raw` and `bot` are always present;
`parsed = none` models the warned-about object of a non-matching line,
which carries none of the parsed attributes. -/
structure ListFile where
  raw : String
  bot : String
  parsed : Option ParsedFields
  deriving Repr, DecidableEq

/-- Model of `ListFile.__init__(string, bot)`.  Returns the object together
with a flag recording whether the non-fatal format warning was emitted.
The size is `int(float(sizeText) * multiplier)`: the decimal text is lexed
(`pyFloatParse`), rounded to binary64 (`doubleOfDecimal`), multiplied by
the power-of-two unit and truncated (`truncProduct`), with the exceptions
raised in the evaluation order of the Python expression: `ValueError` from
`float`, then `KeyError` from the dictionary lookup, then `OverflowError`
from `int` on an infinite product. -/
def ListFile.init (s : String) (bot : String) : Except PyErr (ListFile × Bool) :=
  match reMatch LISTFILE_RE s with
  | none => .ok ({ raw := s, bot := bot, parsed := none }, true)
  | some caps =>
    match pyFloatParse (groupStr caps 3) with
    | none => .error .valueError
    | some (m, d) =>
      match unitTable (groupStr caps 4) with
      | none => .error (.keyError (groupStr caps 4))
      | some mult =>
        match truncProduct (doubleOfDecimal m d) mult with
        | .error e => .error e
        | .ok sz =>
          .ok ({ raw := s, bot := bot,
                 parsed := some {
                   id := natOfDigits (groupStr caps 1).data,
                   downloads := natOfDigits (groupStr caps 2).data,
                   size := sz,
                   filename := groupStr caps 5,
                   group := groupStr caps 6,
                   title := groupStr caps 7,
                   episode := groupStr caps 8,
                   resolution := groupStr caps 9 } }, false)

/-! ## Directory cache and `SubsPleaseXDCC.list_files` -/

/-- The observable facts about the on-disk cache record that
`list_files` tests: existence, `time.time() - getmtime` in seconds, and
`os.path.getsize` in bytes. -/
structure CacheState where
  present : Bool
  ageSeconds : Nat
  sizeBytes : Nat
  deriving Repr, DecidableEq

/-- The cache-hit condition of `list_files`:
`os.path.exists(filename) and time.time() - getmtime(filename) <= 86400
and os.path.getsize(filename) >= 0x1000`. -/
def cacheValid (c : CacheState) : Bool :=
  c.present && decide (c.ageSeconds ≤ 86400) && decide (4096 ≤ c.sizeBytes)

/-- Split a character list at every newline (keeping empty pieces,
including a final empty piece when the list ends in a newline). -/
def splitNl : List Char → List (List Char)
  | [] => [[]]
  | c :: cs =>
    if c = '\n' then [] :: splitNl cs
    else
      match splitNl cs with
      | h :: t => (c :: h) :: t
      | [] => [[c]]

/-- Model of Python `str.splitlines()` for newline-separated text: split on
`'\n'`, without a trailing empty piece for a final newline, and empty for
the empty string. -/
def splitlines (s : String) : List String :=
  match s.data with
  | [] => []
  | l =>
    let parts := splitNl l
    (if parts.getLast? = some [] then parts.dropLast else parts).map
      (fun cs => String.mk cs)

/-- The header/footer trim `data.splitlines()[4:-2]` of `list_files`. -/
def trimListing (l : List String) : List String :=
  let m := l.drop 4
  m.take (m.length - 2)

/-- Result of a `list_files` call: the constructed entries, the number of
format warnings emitted, the raw listing text that was parsed, and whether
it came from the cache (`usedCache`) or from a live fetch written back into
the cache file (`wroteCache`; the live fetch streams directly into the
cache file opened `"wb+"`, before parsing). -/
structure ListFilesResult where
  files : List ListFile
  warnings : Nat
  rawData : String
  usedCache : Bool
  wroteCache : Bool
  deriving Repr, DecidableEq

/-- The list comprehension `[ListFile(i, self.bot) for i in lines]`: one
constructed object per line, the first uncaught exception aborting the
whole comprehension. -/
def initAll (bot : String) : List String → Except PyErr (List (ListFile × Bool))
  | [] => .ok []
  | l :: ls =>
    match ListFile.init l bot with
    | .error e => .error e
    | .ok p =>
      match initAll bot ls with
      | .error e => .error e
      | .ok ps => .ok (p :: ps)

/-- Model of `SubsPleaseXDCC.list_files`, with the environment made
explicit: `c` the state of the cache record, `cached` its text, `live` the
text a live `send("list", stream)` fetch would produce.  Uncaught
exceptions from `ListFile` construction abort the whole call. -/
def list_files (c : CacheState) (cached live : String) (bot : String) :
    Except PyErr ListFilesResult :=
  match initAll bot
      (trimListing (splitlines (if cacheValid c then cached else live))) with
  | .error e => .error e
  | .ok parsed =>
    .ok { files := parsed.map (fun p => p.1),
          warnings := (parsed.filter (fun p => p.2)).length,
          rawData := if cacheValid c then cached else live,
          usedCache := cacheValid c, wroteCache := !cacheValid c }

/-! ## Fuzzy search (`SubsPleaseXDCC.search`)

`search` calls `difflib.get_close_matches(title, {i.title for i in files},
n=8, cutoff=cutoff)`.  `difflib` is an external stdlib collaborator; its
similarity `SequenceMatcher.ratio()` is modelled here exactly for second
sequences shorter than 200 characters (the `autojunk` popularity heuristic,
which only affects longer second sequences, is not modelled): `2 * M /
(len(a) + len(b))` where `M` is the total size of the matching blocks
obtained by recursively splitting around the longest matching block.
`ratio` is not symmetric in its operands; `get_close_matches` sets
`seq1 = candidate` and `seq2 = query word`, so each candidate title is
scored as `simScore title query`.  Scores and the cutoff are modelled as
exact rationals. -/

/-- Length of the longest common prefix of two character lists. -/
def cpl : List Char → List Char → Nat
  | a :: as, b :: bs => if a = b then cpl as bs + 1 else 0
  | _, _ => 0

/-- Length of the matching run starting at `(i, j)` inside the window
`[alo, ahi) × [blo, bhi)` (forward extension clipped to the window). -/
def runAt (a b : List Char) (ahi bhi i j : Nat) : Nat :=
  cpl ((a.take ahi).drop i) ((b.take bhi).drop j)

/-- Model of `SequenceMatcher.find_longest_match` on the window
`[alo, ahi) × [blo, bhi)` (no junk): the CPython loop enumerates run end
positions in row-major order keeping the first strictly larger run length,
which selects the maximum run length together with the lexicographically
least starting position attaining it; this definition enumerates starting
positions in row-major order with strict improvement, which selects the
same triple `(i, j, size)`. -/
def flm (a b : List Char) (alo ahi blo bhi : Nat) : Nat × Nat × Nat :=
  (List.range' alo (ahi - alo)).foldl (fun best i =>
    (List.range' blo (bhi - blo)).foldl (fun best j =>
      let k := runAt a b ahi bhi i j
      if best.2.2 < k then (i, j, k) else best) best) (alo, blo, 0)

/-- Total size of the matching blocks of `get_matching_blocks`: recursively
split around the longest matching block.  The fuel is an upper bound on the
recursion depth (each split strictly shrinks the window sum). -/
def totalMatched (a b : List Char) : Nat → Nat → Nat → Nat → Nat → Nat
  | 0, _, _, _, _ => 0
  | fuel + 1, alo, ahi, blo, bhi =>
    let t := flm a b alo ahi blo bhi
    if t.2.2 = 0 then 0
    else totalMatched a b fuel alo t.1 blo t.2.1 + t.2.2 +
      totalMatched a b fuel (t.1 + t.2.2) ahi (t.2.1 + t.2.2) bhi

/-- Model of `SequenceMatcher(None, s1, s2).ratio()` — first argument
`seq1`, second argument `seq2` — as an exact rational (`calculate_ratio`
returns 1.0 when both strings are empty). -/
def simScore (s1 s2 : String) : ℚ :=
  let a := s1.data
  let b := s2.data
  let m := totalMatched a b (a.length + b.length + 1) 0 a.length 0 b.length
  if a.length + b.length = 0 then 1
  else (2 * m : ℚ) / ((a.length : ℚ) + (b.length : ℚ))

/-- Comparison of the decorated pairs `(score, candidate)` that
`get_close_matches` hands to `heapq.nlargest`, each candidate scored as
`seq1` against the query as `seq2`: `(simScore v q, v)` is strictly
greater than `(simScore w q, w)` in the lexicographic tuple order Python
uses. -/
def tupGt (q v w : String) : Bool :=
  decide (simScore w q < simScore v q) ||
    (decide (simScore v q = simScore w q) && decide (w < v))

/-- Model of `difflib.get_close_matches(q, titles, n=8, cutoff)` as a
predicate-style selection over distinct titles: keep the titles whose score
reaches the cutoff (`real_quick_ratio`/`quick_ratio` are upper bounds of
`ratio`, so the staged test is equivalent to `ratio() >= cutoff`), then
keep those with fewer than 8 strictly greater surviving decorated pairs —
on distinct elements that is exactly the set `heapq.nlargest(8, ...)`
retains, independently of the set iteration order.  Each candidate title
`w` is scored `simScore w q` (the loop does `set_seq2(word)` once and
`set_seq1(x)` per candidate `x`). -/
def closeMatches (q : String) (titles : List String) (cutoff : ℚ) : List String :=
  let scored := titles.filter (fun w => decide (cutoff ≤ simScore w q))
  scored.filter (fun w => (scored.filter (fun v => tupGt q v w)).length < 8)

/-- Python attribute access `f.title`: on an object constructed from a
non-matching line the attribute was never set, so it raises
`AttributeError`. -/
def ListFile.titleE (f : ListFile) : Except PyErr String :=
  match f.parsed with
  | some p => .ok p.title
  | none => .error .attributeError

/-- The titles carried by the parsed entries of a catalog. -/
def titlesOf (files : List ListFile) : List String :=
  files.filterMap (fun f => f.parsed.map (fun p => p.title))

/-- The set comprehension `{i.title for i in files}`: collects every
entry's `title` attribute, raising `AttributeError` at the first entry that
has none. -/
def titlesAll : List ListFile → Except PyErr (List String)
  | [] => .ok []
  | f :: fs =>
    match ListFile.titleE f with
    | .error e => .error e
    | .ok t =>
      match titlesAll fs with
      | .error e => .error e
      | .ok ts => .ok (t :: ts)

/-- Model of `SubsPleaseXDCC.search(title, cutoff)` over an already listed
catalog `files`: build the set of distinct titles (`{i.title for i in
files}`; an unparsed entry raises `AttributeError` here), take the close
matches, and if any, return every entry whose title is among them (on the
non-error path every entry is parsed, so the attribute access in the final
comprehension cannot fail). -/
def search (files : List ListFile) (q : String) (cutoff : ℚ) :
    Except PyErr (List ListFile) :=
  match titlesAll files with
  | .error e => .error e
  | .ok ts =>
    if (closeMatches q ts.dedup cutoff).isEmpty then .ok []
    else .ok (files.filter (fun f =>
      match f.parsed with
      | some p => (closeMatches q ts.dedup cutoff).contains p.title
      | none => false))

/-! ## The XDCC protocol client (`src/subsplease_dl/xdcc.py`)

The client guards its lifecycle with two ad-hoc locks: `avalible_lock`
(acquired in `__init__`, released by `on_welcome`/`on_join`) and `dl_lock`
(acquired by `on_ctcp` on an accepted DCC SEND, released by
`on_dcc_disconnect`).  The event handlers run on the reactor thread; `send`
runs on the caller's thread.  The model linearizes one `send` call against
an explicit script of incoming events: events delivered during the
`time.sleep(3)` pacing pause (`preEvents`) and events delivered while
`send` waits on `dl_lock.acquire(timeout=timeout)` (`postEvents`). -/

/-- The `XDCCFile` progress object: `received` is the running `tqdm`
counter, `size` the declared size from the handshake. -/
structure PyFile where
  filename : String
  size : Nat
  received : Nat
  deriving Repr, DecidableEq

/-- Model of `XDCCFile._download_complete`: the running counter reached the declared
total. -/
def PyFile.downloadComplete (f : PyFile) : Bool := f.size ≤ f.received

/-- The client's mutable state.  `stream` models `self.__stream` as
`some closed?` when a caller-supplied stream is present; `newStreamsOpened`
counts the `open(filename, "wb")` calls `on_ctcp` performs;
`dccConnected` tracks the outbound DCC data connection. -/
structure XDCCState where
  availLocked : Bool
  dlLocked : Bool
  stream : Option Bool
  file : Option PyFile
  dccConnected : Bool
  newStreamsOpened : Nat
  closed : Bool
  deriving Repr, DecidableEq

/-- State after `__init__`: `avalible_lock` acquired, `dl_lock` free, no
stream, no file. -/
def initialState : XDCCState :=
  { availLocked := true, dlLocked := false, stream := none, file := none,
    dccConnected := false, newStreamsOpened := 0, closed := false }

/-- Incoming transport events.  For `ctcp`, `isDcc` models
`event.arguments[0] == "DCC"` and the payload is carried already split into
the five `shlex` tokens with the address/port conversion abstracted into
`addrValid` (a failing `ip_numstr_to_quad`/`int`/`dcc_connect` is the
`except` branch of `on_ctcp`); the well-formed five-token shape is assumed,
as the unpacking itself would raise on any other arity. -/
inductive Event where
  | welcome
  | joined
  | ctcp (isDcc : Bool) (command : String) (filename : String) (size : Nat)
      (addrValid : Bool)
  | dccMsg (len : Nat)
  | dccDisconnect
  deriving Repr, DecidableEq

/-- Model of `on_welcome`: join the configured channel (release happens later in
`on_join`), or release `avalible_lock` directly when no channel is set. -/
def onWelcome (channel : Bool) (s : XDCCState) : XDCCState :=
  if channel then s else { s with availLocked := false }

/-- Model of `on_join`: release `avalible_lock`. -/
def onJoin (s : XDCCState) : XDCCState := { s with availLocked := false }

/-- Model of `on_ctcp`: ignore anything that is not a DCC SEND, and any DCC SEND
arriving while `dl_lock` is held; otherwise acquire `dl_lock`, open a fresh
file stream unless a live caller stream is present, record the new
`XDCCFile`, and open the DCC data connection (on an invalid peer address,
release `dl_lock`, warn and return — the file object and stream remain). -/
def onCtcp (s : XDCCState) (isDcc : Bool) (command filename : String)
    (size : Nat) (addrValid : Bool) : XDCCState :=
  if !isDcc then s
  else if command ≠ "SEND" || s.dlLocked then s
  else
    let s1 := { s with dlLocked := true }
    let s2 :=
      match s1.stream with
      | none => { s1 with newStreamsOpened := s1.newStreamsOpened + 1 }
      | some isClosed =>
        if isClosed then { s1 with newStreamsOpened := s1.newStreamsOpened + 1 }
        else s1
    let s3 := { s2 with file := some { filename := filename, size := size, received := 0 } }
    if addrValid then { s3 with dccConnected := true }
    else { s3 with dlLocked := false }

/-- Model of `on_dccmsg`: raise when no file is pending; otherwise append the block
to the file and counter and, when complete, disconnect the DCC
connection (the resulting disconnect event is delivered separately). -/
def onDccMsg (s : XDCCState) (len : Nat) : Except PyErr XDCCState :=
  match s.file with
  | none => .error (.exception "Recieved data when there is no file to output to")
  | some f =>
    let f' := { f with received := f.received + len }
    let s' := { s with file := some f' }
    if f'.downloadComplete then .ok { s' with dccConnected := false }
    else .ok s'

/-- Model of `on_dcc_disconnect`: release `dl_lock` (releasing an unlocked
`threading.Lock` raises `RuntimeError`). -/
def onDccDisconnect (s : XDCCState) : Except PyErr XDCCState :=
  if s.dlLocked then .ok { s with dlLocked := false, dccConnected := false }
  else .error (.exception "release unlocked lock")

/-- One reactor-thread step. -/
def step (channel : Bool) (s : XDCCState) : Event → Except PyErr XDCCState
  | .welcome => .ok (onWelcome channel s)
  | .joined => .ok (onJoin s)
  | .ctcp d c f sz v => .ok (onCtcp s d c f sz v)
  | .dccMsg n => onDccMsg s n
  | .dccDisconnect => onDccDisconnect s

/-- Deliver a list of events in order; an exception in a handler kills the
reactor thread, so the remaining events are never delivered. -/
def runEvents (channel : Bool) (s : XDCCState) : List Event → XDCCState
  | [] => s
  | e :: es =>
    match step channel s e with
    | .ok s' => runEvents channel s' es
    | .error _ => s

/-- The caller blocked in `dl_lock.acquire(timeout=timeout)`: deliver
events until the lock is observed free (acquire succeeds) or the script is
exhausted / the reactor dies (acquire times out, for a non-negative
`timeout`).  Returns the state and whether the acquire succeeded. -/
def waitDl (channel : Bool) (s : XDCCState) : List Event → XDCCState × Bool
  | [] => (s, !s.dlLocked)
  | e :: es =>
    if !s.dlLocked then (s, true)
    else
      match step channel s e with
      | .ok s' => waitDl channel s' es
      | .error _ => (s, false)

/-- How one `send` call resolved.  `returned none` is the `AttributeError`
raised by `return self.file` when no handshake ever set the attribute;
`requestTimeout` is the `raise Exception("Send request timeout out")`
path; `hangs` is `dl_lock.acquire(timeout=-1)` blocking forever. -/
inductive SendOutcome where
  | returned (file : Option PyFile)
  | requestTimeout
  | hangs
  deriving Repr, DecidableEq

/-- Result of one `send` call: final client state, resolution, and the time
spent inside `avalible_lock.acquire(timeout=60)`. -/
structure SendResult where
  state : XDCCState
  outcome : SendOutcome
  availWait : Nat
  deriving Repr, DecidableEq

/-- Model of `XDCC.send(pack, stream, timeout)`.

`avalible_lock.acquire(timeout=60)`: when the lock is free it is taken (and
never released again by any `send` path); when it is already held the call
waits the full 60 seconds, the failed acquire's `False` result is ignored,
and `send` proceeds regardless.  Then `self.__stream = stream`, the
`xdcc send` control message goes out, `time.sleep(3)` passes (during which
`preEvents` arrive), and the caller blocks in
`dl_lock.acquire(timeout=timeout)`: immediately successful when no
handshake has taken `dl_lock` (the silent-peer case), otherwise served by
`postEvents`; on success the lock is immediately released again and
`self.file` is returned. -/
def send (channel : Bool) (s0 : XDCCState) (stream : Option Bool)
    (timeout : Int) (preEvents postEvents : List Event) : SendResult :=
  let acq := if s0.availLocked then (s0, 60) else ({ s0 with availLocked := true }, 0)
  let s2 := { acq.1 with stream := stream }
  let s3 := runEvents channel s2 preEvents
  if !s3.dlLocked then
    { state := s3, outcome := .returned s3.file, availWait := acq.2 }
  else
    let w := waitDl channel s3 postEvents
    if w.2 then
      { state := w.1, outcome := .returned w.1.file, availWait := acq.2 }
    else if timeout < 0 then
      { state := w.1, outcome := .hangs, availWait := acq.2 }
    else
      { state := w.1, outcome := .requestTimeout, availWait := acq.2 }

/-- The state of a fresh client (no channel configured) once the welcome
event has made it available. -/
def readyState : XDCCState := onWelcome false initialState

/-! ## Concrete example inputs and scenarios -/

/-- The listing line of the specification's parsing example. -/
def exLine : String := "#1234   56x  [700.5M] [GroupX] Show Title - 05 (720p).mkv"

/-- The attribute values `ListFile.__init__` produces on `exLine`. -/
def exParsed : ParsedFields :=
  { id := 1234, downloads := 56, size := 734527488,
    filename := "[GroupX] Show Title - 05 (720p).mkv",
    group := "GroupX", title := "Show Title",
    episode := "05", resolution := "720p" }

/-- The object `ListFile(exLine, "bot")` constructs. -/
def exListFile : ListFile := { raw := exLine, bot := "bot", parsed := some exParsed }

/-- A grammar-conforming line whose size value times its unit multiplier is
not an integer: 0.3 × 1024 = 307.2. -/
def fracLine : String := "#1 1x [0.3K] [A] B - 1 (2p).mkv"

/-- A line that matches the listing grammar but carries the size unit `T`,
which is missing from the unit dictionary. -/
def badUnitLine : String := "#1 1x [5T] [A] B - 1 (2p).mkv"

/-- A listing body of 4 header lines, the bad-unit line, and 2 footer
lines. -/
def badUnitBody : String := "h\nh\nh\nh\n" ++ badUnitLine ++ "\nf\nf"

/-- A listing body of 4 header lines, one grammar-conforming line, one
malformed line, and 2 footer lines. -/
def mixedBody : String :=
  "h\nh\nh\nh\n#1 1x [5K] [A] B - 1 (2p).mkv\nGARBAGE\nf\nf"

/-- A cache state with no record on disk (forces the live fetch). -/
def missingCache : CacheState :=
  { present := false, ageSeconds := 0, sizeBytes := 0 }

/-- A cache record 100 seconds old and 5000 bytes long (a valid hit). -/
def freshCache : CacheState :=
  { present := true, ageSeconds := 100, sizeBytes := 5000 }

/-- The result of `list_files` on `freshCache` with an empty cached text:
served from the cache, nothing fetched or written. -/
def freshResult : ListFilesResult :=
  { files := [], warnings := 0, rawData := "",
    usedCache := true, wroteCache := false }

/-- A cooperative peer: handshake for a 5-byte file, all 5 bytes, then the
connection-closed event. -/
def successEvents : List Event :=
  [.ctcp true "SEND" "f.mkv" 5 true, .dccMsg 5, .dccDisconnect]

/-- A `send` call on a fresh available client whose peer completes the
transfer during the pacing sleep. -/
def sendSuccess : SendResult := send false readyState none 5 successEvents []

/-- The immediately following `send` call on the same client, again with a
fully cooperative peer. -/
def sendSecond : SendResult := send false sendSuccess.state none 5 successEvents []

/-- A `send` call with `timeout=5` on a fresh available client whose peer
never answers at all. -/
def sendSilentPeer : SendResult := send false readyState none 5 [] []

/-- A `send` call whose peer declares 100 bytes, delivers only 40, and then
closes the binary connection. -/
def sendInterrupted : SendResult :=
  send false readyState none 5
    [.ctcp true "SEND" "g.mkv" 100 true, .dccMsg 40, .dccDisconnect] []

/-- A `send` call whose peer declares 100 bytes and delivers all of them
before the connection closes. -/
def sendFinished : SendResult :=
  send false readyState none 5
    [.ctcp true "SEND" "g.mkv" 100 true, .dccMsg 100, .dccDisconnect] []

/-- A client in the middle of a transfer (`dl_lock` held). -/
def transferringState : XDCCState :=
  { readyState with
    dlLocked := true,
    file := some { filename := "a.mkv", size := 50, received := 10 },
    dccConnected := true }

/-- A one-entry catalog whose only title is `"ab"`. -/
def catalogOne : List ListFile :=
  [{ raw := "", bot := "", parsed := some
      { id := 1, downloads := 1, size := 1, filename := "fn",
        group := "G", title := "ab", episode := "", resolution := "SD" } }]

/-! ## Claims -/

/-- C1: the claim says every resolution of `requestPack` returns the client
to `Available` (or `Closed`) before the call returns, so a following call
is never delayed into deadlock by the earlier one.  The code violates this:
`send` takes `avalible_lock` and no path ever releases it, so even after a
fully successful transfer the client is left unavailable (and not closed),
and the immediately following `send` call spends the full 60-second
`acquire` timeout before proceeding — it proceeds at all only because the
failed acquire's result is ignored. -/
theorem send_success_leaves_client_unavailable :
    sendSuccess.outcome = .returned (some { filename := "f.mkv", size := 5, received := 5 }) ∧
    sendSuccess.state.availLocked = true ∧
    sendSuccess.state.closed = false ∧
    sendSecond.availWait = 60 := by decide

/-- C2: the claim says a `requestPack` whose peer never answers fails with
`RequestTimeout` within a bounded wait.  The code violates this: with no
handshake, `dl_lock` was never taken, so `dl_lock.acquire(timeout=5)`
succeeds immediately and `send` returns `self.file` — an attribute that was
never set on a fresh client, raising `AttributeError` (`returned none`
here), not a timeout failure. -/
theorem send_silent_peer_no_timeout_failure :
    sendSilentPeer.outcome = .returned none ∧
    sendSilentPeer.outcome ≠ .requestTimeout ∧
    sendSilentPeer.availWait = 0 := by decide

/-- C8 counterexample: a handshake arriving while the client is `Available`
with no pending request is not ignored — `on_ctcp` takes `dl_lock`, opens a
fresh file stream, records the file and opens the binary connection,
changing the client state. -/
theorem handshake_in_idle_state_acted_upon :
    onCtcp readyState true "SEND" "evil.mkv" 100 true ≠ readyState ∧
    (onCtcp readyState true "SEND" "evil.mkv" 100 true).dlLocked = true ∧
    (onCtcp readyState true "SEND" "evil.mkv" 100 true).newStreamsOpened = 1 ∧
    (onCtcp readyState true "SEND" "evil.mkv" 100 true).dccConnected = true := by
  decide

/-- C8 (amended): a handshake is ignored exactly while a transfer is in
progress — for every state holding `dl_lock`, `on_ctcp` leaves the state
unchanged: no stream is opened, no connection made. -/
theorem handshake_ignored_while_transferring (s : XDCCState) (d : Bool)
    (c f : String) (n : Nat) (v : Bool) (h : s.dlLocked = true) :
    onCtcp s d c f n v = s := by
  unfold onCtcp
  rcases d with _ | _ <;> simp [h]

/-- C8 witness: the amended theorem applied to a concrete transferring
state. -/
theorem handshake_ignored_while_transferring_witness :
    transferringState.dlLocked = true ∧
    onCtcp transferringState true "SEND" "x.mkv" 7 true = transferringState :=
  ⟨by decide, handshake_ignored_while_transferring transferringState true "SEND" "x.mkv" 7
    true (by decide)⟩

/-- C9 counterexample: a binary connection closing before the declared size
is reached does not resolve the request distinctly from success — both the
interrupted and the completed transfer resolve by the same normal return of
the file object; the only trace of the interruption is the file's
completion counter. -/
theorem early_disconnect_not_reported_distinctly :
    sendInterrupted.outcome =
      .returned (some { filename := "g.mkv", size := 100, received := 40 }) ∧
    PyFile.downloadComplete { filename := "g.mkv", size := 100, received := 40 } = false ∧
    sendFinished.outcome =
      .returned (some { filename := "g.mkv", size := 100, received := 100 }) := by
  decide

/-- C9 (amended): when the peer's handshake declares `S` bytes, `n` bytes
arrive and the binary connection closes, `send` returns the file object
normally — the same resolution shape whether or not the transfer finished —
and the file's completion flag holds exactly when the counter reached the
declared size. -/
theorem send_resolution_keyed_on_counter (S n : Nat) :
    (send false readyState none 5
        [.ctcp true "SEND" "g.mkv" S true, .dccMsg n, .dccDisconnect] []).outcome =
      .returned (some { filename := "g.mkv", size := S, received := n }) ∧
    PyFile.downloadComplete { filename := "g.mkv", size := S, received := n } =
      decide (S ≤ n) := by
  constructor
  · by_cases h : S ≤ n <;>
      simp [send, readyState, onWelcome, initialState, runEvents, step, onCtcp,
        onDccMsg, onDccDisconnect, waitDl, PyFile.downloadComplete, h]
  · simp [PyFile.downloadComplete]

/-- C9 witness: the resolution rule applied to the interrupted 40-of-100
transfer. -/
theorem send_resolution_keyed_on_counter_witness :
    (send false readyState none 5
        [.ctcp true "SEND" "g.mkv" 100 true, .dccMsg 40, .dccDisconnect] []).outcome =
      .returned (some { filename := "g.mkv", size := 100, received := 40 }) ∧
    PyFile.downloadComplete { filename := "g.mkv", size := 100, received := 40 } =
      decide (100 ≤ 40) :=
  send_resolution_keyed_on_counter 100 40

/-- C10: a line matching the listing grammar whose size unit is `T` makes
`ListFile.__init__` raise an uncaught `KeyError` on the unit-table lookup,
and that exception aborts the entire `list_files` call instead of skipping
the line with a warning. -/
theorem unknown_unit_keyerror_aborts_list_files :
    ListFile.init badUnitLine "" = .error (.keyError "T") ∧
    list_files missingCache "" badUnitBody "" = .error (.keyError "T") := by
  decide

/-- A constructed `ListFile` carries the format warning exactly when it
carries no parsed attributes. -/
theorem init_warn_iff_unparsed (s bot : String) (lf : ListFile) (w : Bool)
    (h : ListFile.init s bot = .ok (lf, w)) : w = lf.parsed.isNone := by
  unfold ListFile.init at h
  split at h
  · cases h; rfl
  · split at h
    · cases h
    · split at h
      · cases h
      · split at h
        · cases h
        · cases h; rfl

/-- On the non-raising path, the comprehension constructs exactly one
object per input line and warns exactly once per unparsed object. -/
theorem initAll_shape (bot : String) :
    ∀ (lines : List String) (ps : List (ListFile × Bool)),
      initAll bot lines = .ok ps →
      ps.length = lines.length ∧
        (ps.filter (fun p => p.2)).length =
          ((ps.map (fun p => p.1)).filter (fun f => f.parsed.isNone)).length := by
  intro lines
  induction lines with
  | nil =>
    intro ps h
    unfold initAll at h
    cases h
    simp
  | cons l ls ih =>
    intro ps h
    unfold initAll at h
    split at h
    · cases h
    · rename_i p hp
      split at h
      · cases h
      · rename_i ps' hps
        cases h
        obtain ⟨h1, h2⟩ := ih ps' hps
        have hw : p.2 = p.1.parsed.isNone := by
          obtain ⟨lf, w⟩ := p
          exact init_warn_iff_unparsed l bot lf w hp
        refine ⟨by simp [h1], ?_⟩
        simp only [List.filter_cons, List.map_cons, hw]
        cases hb : p.1.parsed.isNone <;> simp [hb, h2]

/-- C3 (amended): a malformed line is warned about but still contributes a
constructed entry with no parsed attributes — `list_files` returns one
entry per trimmed listing line, malformed or not, and one warning per
entry that failed to parse. -/
theorem list_files_entry_per_line (c : CacheState) (cached live bot : String)
    (r : ListFilesResult) (h : list_files c cached live bot = .ok r) :
    r.files.length = (trimListing (splitlines r.rawData)).length ∧
    r.warnings = (r.files.filter (fun f => f.parsed.isNone)).length := by
  unfold list_files at h
  split at h
  · cases h
  · rename_i ps hps
    cases h
    obtain ⟨h1, h2⟩ := initAll_shape bot _ ps hps
    exact ⟨by simpa using h1, by simpa using h2⟩

/-- The attributes parsed from the valid line of `mixedBody`. -/
def mixedParsed : ParsedFields :=
  { id := 1, downloads := 1, size := 5120, filename := "[A] B - 1 (2p).mkv",
    group := "A", title := "B", episode := "1", resolution := "2p" }

/-- The entry constructed from the valid line of `mixedBody`. -/
def mixedEntryOk : ListFile :=
  { raw := "#1 1x [5K] [A] B - 1 (2p).mkv", bot := "", parsed := some mixedParsed }

/-- The warned-about entry constructed from the malformed line of
`mixedBody`. -/
def mixedEntryBad : ListFile :=
  { raw := "GARBAGE", bot := "", parsed := none }

/-- The result of `list_files` on `mixedBody` (live fetch, no cache): the
valid line parses, and the malformed line still yields an unparsed
entry plus a warning. -/
def mixedResult : ListFilesResult :=
  { files := [mixedEntryOk, mixedEntryBad],
    warnings := 1, rawData := mixedBody, usedCache := false, wroteCache := true }

/-- C3 counterexample: a trimmed listing of one valid line and one
malformed line yields two entries, not one — the malformed line is skipped
only in the sense that its attributes stay unset, not in the sense of
contributing no entry. -/
theorem mixed_listing_yields_two_entries :
    list_files missingCache "" mixedBody "" = .ok mixedResult ∧
    mixedResult.files.length = 2 ∧ mixedResult.warnings = 1 ∧ (2 : Nat) ≠ 1 :=
  ⟨by rfl, by rfl, by rfl, by decide⟩

/-- C3 witness: the amended per-line count theorem applied to the concrete
mixed listing. -/
theorem list_files_entry_per_line_witness :
    list_files missingCache "" mixedBody "" = .ok mixedResult ∧
    (mixedResult.files.length =
        (trimListing (splitlines mixedResult.rawData)).length ∧
      mixedResult.warnings =
        (mixedResult.files.filter (fun f => f.parsed.isNone)).length) :=
  ⟨by rfl, list_files_entry_per_line missingCache "" mixedBody "" mixedResult
    (by rfl)⟩

/-- A successful `int(x * mult)` is the floor of the real product of the
finite float's value `num · 2^exp` and the multiplier. -/
theorem truncProduct_floor (num : Nat) (u : Int) (mult sz : Nat)
    (h : truncProduct (.finite num u) mult = .ok sz) :
    sz = Nat.floor ((num : ℚ) * (2 : ℚ) ^ u * (mult : ℚ)) := by
  simp only [truncProduct] at h
  split at h
  · rename_i hu
    split at h
    · cases h
    · cases h
      have h2 : (2 : ℚ) ^ u = (2 : ℚ) ^ u.toNat := by
        conv_lhs => rw [← Int.toNat_of_nonneg hu]
        rw [zpow_natCast]
      rw [h2]
      rw [show (num : ℚ) * (2 : ℚ) ^ u.toNat * (mult : ℚ) =
        ((num * mult * 2 ^ u.toNat : ℕ) : ℚ) by push_cast; ring]
      rw [Nat.floor_natCast]
  · rename_i hu
    cases h
    have h2 : (2 : ℚ) ^ u = ((2 : ℚ) ^ ((-u).toNat : ℕ))⁻¹ := by
      conv_lhs => rw [show u = -(((-u).toNat : ℕ) : ℤ) from by omega]
      rw [zpow_neg, zpow_natCast]
    rw [h2]
    rw [show (num : ℚ) * ((2 : ℚ) ^ ((-u).toNat : ℕ))⁻¹ * (mult : ℚ) =
      ((num * mult : ℕ) : ℚ) / ((2 ^ ((-u).toNat : ℕ) : ℕ) : ℚ) by
        push_cast; ring]
    rw [Nat.floor_div_nat, Nat.floor_natCast]

/-- C4 (amended): for every listing line that matches the grammar and
parses without an exception, the entry's size is the floor (truncation) of
the binary64 rounding of the decimal size value, times the unit
multiplier — not the exact decimal product itself, which need not be an
integer (and need not survive the double rounding). -/
theorem listfile_size_floor_of_product (s bot : String) (lf : ListFile) (w : Bool)
    (p : ParsedFields) (h : ListFile.init s bot = .ok (lf, w))
    (hp : lf.parsed = some p) :
    ∃ caps m d mult num u,
      reMatch LISTFILE_RE s = some caps ∧
      pyFloatParse (groupStr caps 3) = some (m, d) ∧
      unitTable (groupStr caps 4) = some mult ∧
      doubleOfDecimal m d = .finite num u ∧
      p.size = Nat.floor ((num : ℚ) * (2 : ℚ) ^ u * (mult : ℚ)) := by
  unfold ListFile.init at h
  split at h
  · cases h
    cases hp
  · rename_i caps hcaps
    split at h
    · cases h
    · rename_i m d hpf
      split at h
      · cases h
      · rename_i mult hmult
        split at h
        · cases h
        · rename_i sz hsz
          cases h
          simp only [Option.some_inj] at hp
          cases hfd : doubleOfDecimal m d with
          | inf =>
            rw [hfd] at hsz
            simp [truncProduct] at hsz
          | finite num u =>
            rw [hfd] at hsz
            refine ⟨caps, m, d, mult, num, u, hcaps, hpf, hmult, hfd, ?_⟩
            rw [← hp]
            exact truncProduct_floor num u mult sz hsz

/-- C4 witness: the floor formula applied to the specification's example
line. -/
theorem listfile_size_floor_of_product_witness :
    ListFile.init exLine "bot" = .ok (exListFile, false) ∧
    exListFile.parsed = some exParsed ∧
    (∃ caps m d mult num u,
      reMatch LISTFILE_RE exLine = some caps ∧
      pyFloatParse (groupStr caps 3) = some (m, d) ∧
      unitTable (groupStr caps 4) = some mult ∧
      doubleOfDecimal m d = .finite num u ∧
      exParsed.size = Nat.floor ((num : ℚ) * (2 : ℚ) ^ u * (mult : ℚ))) :=
  ⟨by decide, by decide,
    listfile_size_floor_of_product exLine "bot" exListFile false exParsed
      (by decide) (by decide)⟩

/-- C4 counterexample: on the grammar-conforming line with size `0.3K`,
the stored size is 307, but the line's decimal size value times the unit
multiplier is 0.3 × 1024 = 307.2, which no integer equals — the claimed
exact equality fails. -/
theorem fractional_size_not_exact_product :
    (ListFile.init fracLine "").map (fun pr => pr.1.parsed.map (fun q => q.size)) =
      .ok (some 307) ∧
    ¬ ((307 : ℚ) = (3 / 10 : ℚ) * 1024) := by
  constructor
  · decide
  · norm_num

/-- C5 (amended): the specification's example line parses to
`id=1234, downloads=56, group="GroupX", title="Show Title", episode="05",
resolution="720p"` — but with `sizeBytes = 734527488` (the truncation of
700.5 × 2^20), not 734615347. -/
theorem example_line_parse_amended :
    ListFile.init exLine "bot" = .ok (exListFile, false) ∧
    exParsed.id = 1234 ∧ exParsed.downloads = 56 ∧
    exParsed.size = 734527488 ∧
    exParsed.group = "GroupX" ∧ exParsed.title = "Show Title" ∧
    exParsed.episode = "05" ∧ exParsed.resolution = "720p" := by
  decide

/-- C5 counterexample: the example line's parsed size is 734527488, not the
734615347 the claim states (700.5 × 2^20 = 734527488). -/
theorem example_line_size_differs_from_claim :
    (ListFile.init exLine "bot").map (fun pr => pr.1.parsed.map (fun q => q.size)) =
      .ok (some 734527488) ∧
    (734527488 : Nat) ≠ 734615347 := by
  decide

/-- C6: the cached listing is served (without a live fetch) exactly when
the record exists, is at most 24 hours old and holds at least 4096 bytes;
a record aged 25 hours (90000 s) forces the live fetch, whose text is what
gets parsed and written back into the cache file. -/
theorem cache_hit_iff_fresh_and_large (c : CacheState) (cached live bot : String)
    (r : ListFilesResult) (h : list_files c cached live bot = .ok r) :
    ((r.usedCache = true ∧ r.rawData = cached ∧ r.wroteCache = false) ↔
      (c.present = true ∧ c.ageSeconds ≤ 86400 ∧ 4096 ≤ c.sizeBytes)) ∧
    (c.ageSeconds = 90000 →
      r.usedCache = false ∧ r.rawData = live ∧ r.wroteCache = true) := by
  unfold list_files at h
  split at h
  · cases h
  · cases h
    by_cases hcv : cacheValid c = true
    · have hrhs : c.present = true ∧ c.ageSeconds ≤ 86400 ∧ 4096 ≤ c.sizeBytes := by
        simpa [cacheValid, and_assoc] using hcv
      constructor
      · simp [hcv, hrhs]
      · intro h90
        exact absurd (h90 ▸ hrhs.2.1) (by norm_num)
    · have hrhs : ¬(c.present = true ∧ c.ageSeconds ≤ 86400 ∧ 4096 ≤ c.sizeBytes) := by
        simpa [cacheValid, and_assoc] using hcv
      have hcvf : cacheValid c = false := by
        cases hcc : cacheValid c
        · rfl
        · exact absurd hcc hcv
      constructor
      · simp [hcvf, hrhs]
      · intro _
        simp [hcvf]

/-- C6 witness: the cache-hit characterization applied to a fresh,
plausible record. -/
theorem cache_hit_iff_fresh_and_large_witness :
    list_files freshCache "" "x" "" = .ok freshResult ∧
    (((freshResult.usedCache = true ∧ freshResult.rawData = "" ∧
        freshResult.wroteCache = false) ↔
      (freshCache.present = true ∧ freshCache.ageSeconds ≤ 86400 ∧
        4096 ≤ freshCache.sizeBytes)) ∧
    (freshCache.ageSeconds = 90000 →
      freshResult.usedCache = false ∧ freshResult.rawData = "x" ∧
        freshResult.wroteCache = true)) :=
  ⟨by rfl, cache_hit_iff_fresh_and_large freshCache "" "x" "" freshResult (by rfl)⟩

/-- A decorated pair strictly greater than that of `w` has a score at least
that of `w`. -/
theorem tupGt_score_le (q v w : String) (h : tupGt q v w = true) :
    simScore w q ≤ simScore v q := by
  have h' : simScore w q < simScore v q ∨
      (simScore v q = simScore w q ∧ w < v) := by
    simpa [tupGt] using h
  rcases h' with h1 | h2
  · exact le_of_lt h1
  · exact le_of_eq h2.1.symm

/-- Raising the cutoff never adds close matches: every title selected at
the higher cutoff is also selected at the lower one (scores at least the
higher cutoff, and its strictly-greater competitors are identical in both
selections). -/
theorem closeMatches_anti (q : String) (ts : List String) (c c' : ℚ)
    (hcc : c ≤ c') (w : String) (hw : w ∈ closeMatches q ts c') :
    w ∈ closeMatches q ts c := by
  unfold closeMatches at hw ⊢
  rw [List.mem_filter] at hw
  obtain ⟨hw1, hw2⟩ := hw
  rw [List.mem_filter] at hw1
  obtain ⟨hwts, hwc'⟩ := hw1
  have hscw : c' ≤ simScore w q := of_decide_eq_true hwc'
  have hscw2 : c ≤ simScore w q := le_trans hcc hscw
  have hfeq :
      ((ts.filter (fun v => decide (c ≤ simScore v q))).filter
        (fun v => tupGt q v w)) =
      ((ts.filter (fun v => decide (c' ≤ simScore v q))).filter
        (fun v => tupGt q v w)) := by
    rw [List.filter_filter, List.filter_filter]
    apply List.filter_congr
    intro v _
    cases hg : tupGt q v w
    · simp
    · have hsv : c' ≤ simScore v q := le_trans hscw (tupGt_score_le q v w hg)
      simp [decide_eq_true hsv, decide_eq_true (le_trans hcc hsv)]
  rw [List.mem_filter]
  refine ⟨List.mem_filter.mpr ⟨hwts, decide_eq_true hscw2⟩, ?_⟩
  rw [show (fun v => tupGt q v w) = fun v => tupGt q v w from rfl] at hfeq
  simpa [hfeq] using hw2

/-- On a catalog whose entries all parsed, the title-set comprehension
succeeds and collects exactly the parsed titles. -/
theorem titlesAll_ok_of_parsed :
    ∀ (files : List ListFile), (∀ f ∈ files, f.parsed.isSome) →
      titlesAll files = .ok (titlesOf files) := by
  intro files
  induction files with
  | nil => intro _; rfl
  | cons f fs ih =>
    intro hall
    obtain ⟨p, hp⟩ :=
      Option.isSome_iff_exists.mp (hall f (List.mem_cons_self f fs))
    have hrest := ih (fun g hg => hall g (List.mem_cons_of_mem f hg))
    unfold titlesAll ListFile.titleE
    rw [hp, hrest]
    simp [titlesOf, List.filterMap_cons, hp]

/-- C7: `search` never returns an entry whose title scores below the
cutoff; raising the cutoff never enlarges the result; and when every
catalog title scores below the cutoff the result is the empty list, not an
error. -/
theorem search_sound_monotone_empty (files : List ListFile) (q : String)
    (c c' : ℚ) :
    (∀ res, search files q c = .ok res →
      ∀ f ∈ res, ∃ p, f.parsed = some p ∧ c ≤ simScore p.title q) ∧
    (c ≤ c' → ∀ res res', search files q c = .ok res →
      search files q c' = .ok res' → ∀ f ∈ res', f ∈ res) ∧
    ((∀ f ∈ files, f.parsed.isSome) →
      (∀ t ∈ titlesOf files, simScore t q < c) → search files q c = .ok []) := by
  refine ⟨?_, ?_, ?_⟩
  · intro res hres f hf
    unfold search at hres
    split at hres
    · cases hres
    · rename_i ts hts
      split at hres
      · cases hres
        cases hf
      · cases hres
        rw [List.mem_filter] at hf
        obtain ⟨hffiles, hfp⟩ := hf
        cases hparsed : f.parsed with
        | none => rw [hparsed] at hfp; cases hfp
        | some p =>
          rw [hparsed] at hfp
          have hmem : p.title ∈ closeMatches q ts.dedup c := List.elem_iff.mp hfp
          unfold closeMatches at hmem
          rw [List.mem_filter] at hmem
          rw [List.mem_filter] at hmem
          exact ⟨p, rfl, of_decide_eq_true hmem.1.2⟩
  · intro hcc res res' hres hres' f hf'
    unfold search at hres hres'
    cases hts : titlesAll files with
    | error e =>
      rw [hts] at hres
      cases hres
    | ok ts =>
      rw [hts] at hres hres'
      simp only at hres hres'
      split at hres'
      · cases hres'
        cases hf'
      · cases hres'
        rw [List.mem_filter] at hf'
        obtain ⟨hffiles, hfp⟩ := hf'
        cases hparsed : f.parsed with
        | none => rw [hparsed] at hfp; cases hfp
        | some p =>
          rw [hparsed] at hfp
          have hmem' : p.title ∈ closeMatches q ts.dedup c' := List.elem_iff.mp hfp
          have hmem : p.title ∈ closeMatches q ts.dedup c :=
            closeMatches_anti q ts.dedup c c' hcc p.title hmem'
          split at hres
          · rename_i hemp
            rw [List.isEmpty_iff] at hemp
            rw [hemp] at hmem
            cases hmem
          · cases hres
            rw [List.mem_filter]
            refine ⟨hffiles, ?_⟩
            rw [hparsed]
            exact List.elem_iff.mpr hmem
  · intro hall hbelow
    unfold search
    rw [titlesAll_ok_of_parsed files hall]
    have hscored :
        (titlesOf files).dedup.filter (fun w => decide (c ≤ simScore w q)) = [] := by
      rw [List.filter_eq_nil_iff]
      intro t ht
      simp [not_le.mpr (hbelow t (List.mem_dedup.mp ht))]
    have hcm : closeMatches q (titlesOf files).dedup c = [] := by
      unfold closeMatches
      rw [hscored]
      rfl
    simp [hcm]

/-- C7 witness: the empty-result clause applied to a one-entry catalog that
scores 0 against the query. -/
theorem search_sound_monotone_empty_witness :
    (∀ f ∈ catalogOne, f.parsed.isSome) ∧
    (∀ t ∈ titlesOf catalogOne, simScore t "zz" < (1 / 2 : ℚ)) ∧
    search catalogOne "zz" (1 / 2) = .ok [] := by
  have hm : totalMatched ['a', 'b'] ['z', 'z'] 5 0 2 0 2 = 0 := by rfl
  have h0 : simScore "ab" "zz" = 0 := by
    norm_num [simScore, hm]
  have hall : ∀ f ∈ catalogOne, f.parsed.isSome := by decide
  have hbelow : ∀ t ∈ titlesOf catalogOne, simScore t "zz" < (1 / 2 : ℚ) := by
    intro t ht
    have hts : titlesOf catalogOne = ["ab"] := by rfl
    rw [hts] at ht
    rw [List.mem_singleton.mp ht, h0]
    norm_num
  exact ⟨hall, hbelow,
    (search_sound_monotone_empty catalogOne "zz" (1 / 2) (1 / 2)).2.2 hall hbelow⟩

end SubsPleaseDL
